import Mathlib

/-!
Shallow embedding of the wager decision engine, pubsub resolution logic and
watch scheduler of the Twitch-Channel-Points-Miner Go repository.

Modelling conventions:
* Go `int` is `ℤ`, Go `float64` is `ℚ` (exact rational arithmetic in place
  of IEEE floats), Go `string` is `String`, Go `bool` is `Bool`.
* Nil-able Go pointers (`*int`, `*bool`, `*float64`, `*string`) are `Option`.
* Go's `time.Time` values are modelled as instants in seconds (`ℚ`); the Go
  zero time is `Option.none`.
* Go map/pointer mutation becomes explicit state passing; the shared
  prediction registry and the per-streamer history ledgers are association
  lists inside an explicit `PubSubState`.
-/

namespace TCPM

/-- Model of Go `strings.ToUpper` (character-wise upper-casing). -/
def goUpper (s : String) : String := ⟨s.data.map Char.toUpper⟩

/-- Model of Go `strings.ToLower` (character-wise lower-casing). -/
def goLower (s : String) : String := ⟨s.data.map Char.toLower⟩

/-- Model of Go's `int(f)` conversion on a `float64`: truncation toward zero. -/
def goTrunc (q : ℚ) : ℤ := if q < 0 then ⌈q⌉ else ⌊q⌋

/-- Insert an element into a list keeping stability: the new element is
placed before the first element that is strictly after it in the preorder
`le`, exactly where Go's `sort.SliceStable` would keep it. -/
def insertStable {α : Type} (le : α → α → Prop) [DecidableRel le] (a : α) :
    List α → List α
  | [] => [a]
  | b :: rest =>
    if le a b ∧ ¬ le b a then a :: b :: rest else b :: insertStable le a rest

/-- Stable sort (model of Go `sort.SliceStable`); any two stable sorts for
the same total preorder agree, so stable insertion sort is a faithful model. -/
def sortStable {α : Type} (le : α → α → Prop) [DecidableRel le] : List α → List α
  | [] => []
  | a :: rest => insertStable le a (sortStable le rest)

theorem mem_insertStable {α : Type} (le : α → α → Prop) [DecidableRel le] (a x : α) :
    ∀ l : List α, x ∈ insertStable le a l → x = a ∨ x ∈ l := by
  intro l
  induction l with
  | nil => simp [insertStable]
  | cons b rest ih =>
    simp only [insertStable]
    by_cases h : le a b ∧ ¬ le b a
    · simp only [if_pos h, List.mem_cons]
      tauto
    · simp only [if_neg h, List.mem_cons]
      intro hx
      rcases hx with hx | hx
      · tauto
      · rcases ih hx with h1 | h1 <;> tauto

theorem mem_sortStable {α : Type} (le : α → α → Prop) [DecidableRel le] (x : α) :
    ∀ l : List α, x ∈ sortStable le l → x ∈ l := by
  intro l
  induction l with
  | nil => simp [sortStable]
  | cons b rest ih =>
    intro hx
    rcases mem_insertStable le b x _ hx with h1 | h1
    · simp [h1]
    · simp [ih h1]

/-! ## Entities (`classes/entities/types.go`) -/

/-- `BetSettings` from `entities/types.go`. -/
structure BetSettings where
  strategy : String
  percentage : Option ℤ
  percentageGap : Option ℤ
  maxPoints : Option ℤ
  minimumPoints : Option ℤ
  stealthMode : Option Bool
  filterCondition : Option String
  delay : Option ℚ
  delayMode : String
deriving Repr, DecidableEq

/-- `BetSettings.Default` from `entities/types.go`: fill each unset field
with its default, in source order. -/
def BetSettings.Default (b0 : BetSettings) : BetSettings :=
  let b := if b0.strategy = "" then { b0 with strategy := "SMART" } else b0
  let b := if b.percentage = none then { b with percentage := some 5 } else b
  let b := if b.percentageGap = none then { b with percentageGap := some 20 } else b
  let b := if b.maxPoints = none then { b with maxPoints := some 50000 } else b
  let b := if b.minimumPoints = none then { b with minimumPoints := some 0 } else b
  let b := if b.stealthMode = none then { b with stealthMode := some false } else b
  let b := if b.delayMode = "" then { b with delayMode := "FROM_END" } else b
  let b := if b.delay = none then { b with delay := some 6 } else b
  b

/-- `StreamerSettings` from `entities/types.go`. -/
structure StreamerSettings where
  makePredictions : Bool
  followRaid : Bool
  claimDrops : Bool
  claimMoments : Bool
  watchStreak : Bool
  communityGoals : Bool
  bet : BetSettings
deriving Repr, DecidableEq

/-- `Stream` from `entities/community_goal.go`; only the fields the embedded
functions read are kept. `lastUpdate` instants use `none` for Go's zero time. -/
structure Stream where
  campaignIDs : List String
  watchStreakMissing : Bool
  minuteWatched : ℚ
  lastUpdate : Option ℚ
deriving Repr, DecidableEq

/-- `Streamer` from `entities/types.go`; `activeMultipliers` keeps just the
numeric `factor` of each multiplier map, which is all `TotalMultiplier` reads.
`onlineAt`/`offlineAt` use `none` for Go's zero `time.Time`. -/
structure Streamer where
  username : String
  channelID : String
  channelPoints : ℤ
  settings : StreamerSettings
  isOnline : Bool
  onlineAt : Option ℚ
  offlineAt : Option ℚ
  stream : Option Stream
  activeMultipliers : List ℚ
deriving Repr, DecidableEq

/-- `Streamer.TotalMultiplier` from `entities/types.go`: sum of the
multiplier factors. -/
def Streamer.TotalMultiplier (s : Streamer) : ℚ :=
  s.activeMultipliers.sum

/-- `Streamer.PredictionWindowSeconds` from `entities/types.go`: adjust the
prediction window by the configured delay and delay mode. -/
def Streamer.PredictionWindowSeconds (s : Streamer) (predictionWindow : ℚ) : ℚ :=
  let delay := match s.settings.bet.delay with
    | none => 0
    | some d => d
  if s.settings.bet.delayMode = "FROM_START" then
    if delay < predictionWindow then delay else predictionWindow
  else if s.settings.bet.delayMode = "FROM_END" then
    if predictionWindow - delay > 0 then predictionWindow - delay else 0
  else if s.settings.bet.delayMode = "PERCENTAGE" then
    predictionWindow * delay
  else
    predictionWindow

/-! ## Prediction engine (`classes/prediction` code in `entities/types.go`) -/

/-- `PredictionOutcome` record. -/
structure PredictionOutcome where
  id : String
  title : String
  color : String
  totalUsers : ℤ
  totalPoints : ℤ
  topPoints : ℤ
  percentageUsers : ℚ
  odds : ℚ
  oddsPercentage : ℚ
deriving Repr, DecidableEq

/-- Go zero value of `PredictionOutcome`. -/
def PredictionOutcome.zero : PredictionOutcome :=
  ⟨"", "", "", 0, 0, 0, 0, 0, 0⟩

/-- `PredictionDecision` record. -/
structure PredictionDecision where
  choice : ℤ
  outcomeID : String
  amount : ℤ
deriving Repr, DecidableEq

/-- Go zero value of `PredictionDecision`. -/
def PredictionDecision.zero : PredictionDecision := ⟨0, "", 0⟩

/-- `PredictionEvent` record; the `Streamer` back-reference is always
present in the embedding (Go's nil guards never fire on states we build). -/
structure PredictionEvent where
  streamer : Streamer
  eventID : String
  title : String
  status : String
  createdAt : ℚ
  windowSeconds : ℚ
  outcomes : List PredictionOutcome
  decision : PredictionDecision
  betPlaced : Bool
  betConfirmed : Bool
  resultType : String
deriving Repr, DecidableEq

/-- The fields `UpdateOutcomes` extracts from one element of the raw JSON
`outcomes` array: `topPoints` is the `points` of the first `top_predictors`
entry, `0` when that list is absent or empty. -/
structure OutcomeInput where
  id : String
  title : String
  color : String
  totalUsers : ℤ
  totalPoints : ℤ
  topPoints : ℤ
deriving Repr, DecidableEq

/-- Body of `PredictionEvent.UpdateOutcomes`: parse every outcome, total the
voters and points, then fill the three derived metrics. A metric keeps the
Go zero value `0` when its guard (`totalUsers > 0`, `TotalPoints > 0`,
`Odds > 0`) fails. -/
def updateOutcomes (inputs : List OutcomeInput) : List PredictionOutcome :=
  let totalUsers : ℤ := (inputs.map (fun oc => oc.totalUsers)).sum
  let totalPoints : ℤ := (inputs.map (fun oc => oc.totalPoints)).sum
  inputs.map (fun oc =>
    let percentageUsers : ℚ :=
      if totalUsers > 0 then ((oc.totalUsers : ℚ) * 100) / (totalUsers : ℚ) else 0
    let odds : ℚ :=
      if oc.totalPoints > 0 then (totalPoints : ℚ) / (oc.totalPoints : ℚ) else 0
    let oddsPercentage : ℚ := if odds > 0 then 100 / odds else 0
    { id := oc.id, title := oc.title, color := oc.color,
      totalUsers := oc.totalUsers, totalPoints := oc.totalPoints,
      topPoints := oc.topPoints, percentageUsers := percentageUsers,
      odds := odds, oddsPercentage := oddsPercentage })

/-- `PredictionEvent.UpdateOutcomes`: replace the outcome list. -/
def PredictionEvent.UpdateOutcomes (p : PredictionEvent) (inputs : List OutcomeInput) :
    PredictionEvent :=
  { p with outcomes := updateOutcomes inputs }

/-- Loop body of `maxIndex`: scan the remaining outcomes (starting at list
index `i`) keeping the first index `best` whose value `bestVal` is maximal
under strict improvement only (ties stay at the lower index). -/
def maxIndexGo (value : PredictionOutcome → ℚ) :
    List PredictionOutcome → ℕ → ℕ → ℚ → ℕ
  | [], _, best, _ => best
  | o :: rest, i, best, bestVal =>
    if value o > bestVal then maxIndexGo value rest (i + 1) i (value o)
    else maxIndexGo value rest (i + 1) best bestVal

/-- `maxIndex`: index of the first outcome with the maximal value, `-1` on
an empty list. -/
def maxIndex (outcomes : List PredictionOutcome) (value : PredictionOutcome → ℚ) : ℤ :=
  match outcomes with
  | [] => -1
  | o :: rest => (maxIndexGo value rest 1 0 (value o) : ℤ)

/-- `selectOutcome`: strategy dispatch. A `NUMBER_k` strategy whose index
does not exist, and any unrecognized strategy, fall through to the final
`HIGH_ODDS` return of the Go switch. -/
def selectOutcome (outcomes : List PredictionOutcome) (settings : BetSettings) : ℤ :=
  if outcomes = [] then -1
  else
    let strategy := if settings.strategy = "" then "SMART" else settings.strategy
    if strategy = "MOST_VOTED" then maxIndex outcomes (fun o => (o.totalUsers : ℚ))
    else if strategy = "HIGH_ODDS" then maxIndex outcomes (fun o => o.odds)
    else if strategy = "PERCENTAGE" then maxIndex outcomes (fun o => o.oddsPercentage)
    else if strategy = "SMART_MONEY" then maxIndex outcomes (fun o => (o.topPoints : ℚ))
    else if strategy = "NUMBER_1" then
      (if outcomes.length > 0 then 0 else maxIndex outcomes (fun o => o.odds))
    else if strategy = "NUMBER_2" then
      (if outcomes.length > 1 then 1 else maxIndex outcomes (fun o => o.odds))
    else if strategy = "NUMBER_3" then
      (if outcomes.length > 2 then 2 else maxIndex outcomes (fun o => o.odds))
    else if strategy = "NUMBER_4" then
      (if outcomes.length > 3 then 3 else maxIndex outcomes (fun o => o.odds))
    else if strategy = "NUMBER_5" then
      (if outcomes.length > 4 then 4 else maxIndex outcomes (fun o => o.odds))
    else if strategy = "NUMBER_6" then
      (if outcomes.length > 5 then 5 else maxIndex outcomes (fun o => o.odds))
    else if strategy = "NUMBER_7" then
      (if outcomes.length > 6 then 6 else maxIndex outcomes (fun o => o.odds))
    else if strategy = "NUMBER_8" then
      (if outcomes.length > 7 then 7 else maxIndex outcomes (fun o => o.odds))
    else if strategy = "SMART" then
      let gap : ℤ := match settings.percentageGap with
        | none => 20
        | some g => g
      let percents := sortStable
        (fun a b => b.percentageUsers ≤ a.percentageUsers) outcomes
      match percents with
      | a :: b :: _ =>
        if |a.percentageUsers - b.percentageUsers| < (gap : ℚ) then
          maxIndex outcomes (fun o => o.odds)
        else
          maxIndex outcomes (fun o => (o.totalUsers : ℚ))
      | _ => maxIndex outcomes (fun o => (o.totalUsers : ℚ))
    else maxIndex outcomes (fun o => o.odds)

/-- `PredictionEvent.Decide`: choose an outcome and size the stake; returns
the decision together with the mutated event (`Decision`, `BetPlaced`). -/
def PredictionEvent.Decide (p : PredictionEvent) (balance : ℤ) :
    PredictionDecision × PredictionEvent :=
  if p.outcomes = [] then (PredictionDecision.zero, p)
  else
    let settings := p.streamer.settings.bet
    let choice := selectOutcome p.outcomes settings
    if choice < 0 ∨ (p.outcomes.length : ℤ) ≤ choice then (PredictionDecision.zero, p)
    else
      let percentage : ℤ := match settings.percentage with
        | none => 5
        | some v => v
      let amount0 := goTrunc ((balance : ℚ) * ((percentage : ℚ) / 100))
      let amount1 := match settings.maxPoints with
        | some mp => if amount0 > mp then mp else amount0
        | none => amount0
      let chosen := p.outcomes.getD choice.toNat PredictionOutcome.zero
      let amount :=
        if settings.stealthMode = some true ∧ chosen.topPoints > 0 ∧
            chosen.topPoints ≤ amount1 then
          (if chosen.topPoints - 1 < 1 then 1 else chosen.topPoints - 1)
        else amount1
      let decision : PredictionDecision := ⟨choice, chosen.id, amount⟩
      (decision, { p with decision := decision, betPlaced := amount > 0 })

/-- The fields of a `predictions-user-v1` result message that
`ParseResult` reads. -/
structure ResultMsg where
  type : String
  pointsWon : ℤ
deriving Repr, DecidableEq

/-- `PredictionEvent.ParseResult`: returns `(gained, placed, won,
resultType)` and the event with its resolved-result tag set. -/
def PredictionEvent.ParseResult (p : PredictionEvent) (result : ResultMsg) :
    ℤ × ℤ × ℤ × String × PredictionEvent :=
  let resultType := goUpper result.type
  let placed0 := p.decision.amount
  let won0 := result.pointsWon
  let placed := if resultType = "REFUND" then 0 else placed0
  let won := if resultType = "REFUND" then 0 else won0
  let gained := won - placed
  (gained, placed, won, resultType, { p with resultType := resultType })

/-! ## PubSub prediction handling (`classes/pubsub.go`) -/

/-- One `(Count, Amount)` entry of a streamer's history ledger. -/
structure HistoryEntry where
  count : ℤ
  amount : ℤ
deriving Repr, DecidableEq

/-- The history ledgers of all streamers, keyed by (username, reason). -/
abbrev History := List ((String × String) × HistoryEntry)

/-- Update loop of `recordHistory`: bump the existing entry or create a
fresh one with `Count 1`. -/
def recordHistoryGo : History → String → String → ℤ → History
  | [], u, r, a => [((u, r), ⟨1, a⟩)]
  | (k, e) :: rest, u, r, a =>
    if k = (u, r) then (k, ⟨e.count + 1, e.amount + a⟩) :: rest
    else (k, e) :: recordHistoryGo rest u r a

/-- `recordHistory` from `pubsub.go` (an empty reason is ignored). -/
def recordHistory (h : History) (username reason : String) (amount : ℤ) : History :=
  if reason = "" then h else recordHistoryGo h username reason amount

/-- Model of Go `math.Round`: round half away from zero. -/
def goRound (q : ℚ) : ℤ := if q < 0 then -⌊-q + 1 / 2⌋ else ⌊q + 1 / 2⌋

/-- `payoutForOutcome` from `pubsub.go`. -/
def payoutForOutcome (decision : PredictionDecision)
    (outcomes : List PredictionOutcome) (winningID : String) : ℤ :=
  if decision.amount ≤ 0 ∨ decision.outcomeID ≠ winningID then 0
  else
    let totalPoints : ℤ := (outcomes.map (fun oc => oc.totalPoints)).sum
    let winPoints : ℤ :=
      outcomes.foldl (fun acc oc => if oc.id = winningID then oc.totalPoints else acc) 0
    if totalPoints = 0 ∨ winPoints = 0 then decision.amount
    else
      let payout := goRound ((decision.amount : ℚ) * ((totalPoints : ℚ) / (winPoints : ℚ)))
      if payout < decision.amount then decision.amount else payout

/-- `logPredictionResult` from `pubsub.go`: parse the result (setting the
resolved-result tag and `BetConfirmed`) and record the history entries. -/
def logPredictionResult (ev : PredictionEvent) (result : ResultMsg) (h : History) :
    PredictionEvent × History :=
  let parsed := ev.ParseResult result
  let gained := parsed.1
  let placed := parsed.2.1
  let won := parsed.2.2.1
  let resultType := parsed.2.2.2.1
  let ev2 := { parsed.2.2.2.2 with betConfirmed := true }
  let u := ev.streamer.username
  let h1 := if gained ≠ 0 then recordHistory h u "PREDICTION" gained else h
  let h2 :=
    if resultType = "REFUND" ∧ placed > 0 then recordHistory h1 u "REFUND" (-placed)
    else if resultType = "WIN" ∧ won > 0 then recordHistory h1 u "PREDICTION" (-won)
    else h1
  (ev2, h2)

/-- What the `event-updated` handler reads from the channel event payload:
the raw status, the winning outcome id already extracted by
`winningOutcomeID` (its explicit field or the per-outcome winner-flag scan;
`""` when none is found), and the refreshed outcome list when present. -/
structure ChannelEventUpdate where
  status : String
  winningID : String
  outcomes : Option (List OutcomeInput)
deriving Repr, DecidableEq

/-- The mutable pubsub prediction state: the active event registry
(`PubSubClient.predictions`) and the streamers' history ledgers. -/
structure PubSubState where
  predictions : List (String × PredictionEvent)
  history : History
deriving Repr, DecidableEq

/-- Registry read (`p.predictions[eventID]`). -/
def predLookup : List (String × PredictionEvent) → String → Option PredictionEvent
  | [], _ => none
  | (k, ev) :: rest, eid => if k = eid then some ev else predLookup rest eid

/-- Registry write through the event pointer / `p.predictions[id] = event`. -/
def predSet : List (String × PredictionEvent) → String → PredictionEvent →
    List (String × PredictionEvent)
  | [], eid, ev => [(eid, ev)]
  | (k, e) :: rest, eid, ev =>
    if k = eid then (k, ev) :: rest else (k, e) :: predSet rest eid ev

/-- Registry delete (`delete(p.predictions, eventID)`). -/
def predDelete : List (String × PredictionEvent) → String →
    List (String × PredictionEvent)
  | [], _ => []
  | (k, e) :: rest, eid =>
    if k = eid then predDelete rest eid else (k, e) :: predDelete rest eid

/-- `processPredictionUser` from `pubsub.go`, for a message naming
`eventID` with nested type `msgType` and an optional result record. -/
def processPredictionUser (s : PubSubState) (eventID : String) (msgType : String)
    (result : Option ResultMsg) : PubSubState :=
  match predLookup s.predictions eventID with
  | none => s
  | some ev =>
    if goLower msgType = "prediction-made" then
      { s with predictions := predSet s.predictions eventID { ev with betConfirmed := true } }
    else if goLower msgType = "prediction-result" then
      match result with
      | none => s
      | some res =>
        let ev1 := if ev.betConfirmed then ev else { ev with betConfirmed := true }
        let logged := logPredictionResult ev1 res s.history
        { predictions := predDelete s.predictions eventID, history := logged.2 }
    else s

/-- `resolvePredictionFromChannel` from `pubsub.go`, acting on the event,
the history ledger and returning whether the event is to be removed from
the registry. -/
def resolvePredictionFromChannel (ev : PredictionEvent) (em : ChannelEventUpdate)
    (h : History) : PredictionEvent × History × Bool :=
  if ev.decision.amount = 0 ∨ ev.resultType ≠ "" then (ev, h, false)
  else
    let status := goUpper em.status
    if status ≠ "RESOLVED" ∧ status ≠ "CANCELED" ∧ status ≠ "CANCELLED" then
      (ev, h, false)
    else
      let winningID := em.winningID
      if status = "CANCELED" ∨ status = "CANCELLED" then
        let logged := logPredictionResult ev ⟨"REFUND", 0⟩ h
        (logged.1, logged.2, true)
      else if winningID = "" then (ev, h, false)
      else
        let resultType := if ev.decision.outcomeID = winningID then "WIN" else "LOSE"
        let pointsWon :=
          if ev.decision.outcomeID = winningID then
            payoutForOutcome ev.decision ev.outcomes winningID
          else 0
        let logged := logPredictionResult ev ⟨resultType, pointsWon⟩ h
        (logged.1, logged.2, true)

/-- The `event-updated` branch of `processPredictionChannel`: refresh the
registered event's status and outcomes, then try the channel-side
resolution fallback. -/
def processPredictionChannelUpdated (s : PubSubState) (eventID : String)
    (em : ChannelEventUpdate) : PubSubState :=
  match predLookup s.predictions eventID with
  | none => s
  | some ev =>
    let ev1 := { ev with
      status := goUpper em.status,
      outcomes := match em.outcomes with
        | some oc => updateOutcomes oc
        | none => ev.outcomes }
    let s1 : PubSubState := { s with predictions := predSet s.predictions eventID ev1 }
    let resolved := resolvePredictionFromChannel ev1 em s1.history
    if resolved.2.2 then
      { predictions := predDelete s1.predictions eventID, history := resolved.2.1 }
    else
      { predictions := predSet s1.predictions eventID resolved.1, history := resolved.2.1 }

/-- Reason strings of the below-Twitch-minimum skip in `placePrediction`. -/
inductive SkipReason where
  | balanceBelowTwitchMinimum
  | maxPointsBelowTwitchMinimum
  | calculatedStakeBelowTwitchMinimum
deriving Repr, DecidableEq

/-- Observable outcome of one `placePrediction` run; `placed` means the
wager was submitted via `MakePrediction`. -/
inductive PlaceResult where
  | eventNotFound
  | skipStatus (status : String)
  | skipMinimumPoints
  | skipNoOutcome
  | skipBelowTwitchMinimum (reason : SkipReason)
  | placed (decision : PredictionDecision)
deriving Repr, DecidableEq

/-- `placePrediction` from `pubsub.go` (submission is modelled as
succeeding; an API error would only skip the post-submit mutations). -/
def placePrediction (s : PubSubState) (eventID : String) : PlaceResult × PubSubState :=
  match predLookup s.predictions eventID with
  | none => (.eventNotFound, s)
  | some ev =>
    let streamer := ev.streamer
    if ev.status ≠ "ACTIVE" then (.skipStatus ev.status, s)
    else if (match streamer.settings.bet.minimumPoints with
             | some mp => decide (streamer.channelPoints ≤ mp)
             | none => false) then (.skipMinimumPoints, s)
    else
      let decided := ev.Decide streamer.channelPoints
      let decision := decided.1
      let s1 : PubSubState := { s with predictions := predSet s.predictions eventID decided.2 }
      if decision.outcomeID = "" then (.skipNoOutcome, s1)
      else if decision.amount < 10 then
        let reason :=
          if streamer.channelPoints < 10 then SkipReason.balanceBelowTwitchMinimum
          else match streamer.settings.bet.maxPoints with
            | some mp =>
              if mp < 10 then SkipReason.maxPointsBelowTwitchMinimum
              else SkipReason.calculatedStakeBelowTwitchMinimum
            | none => SkipReason.calculatedStakeBelowTwitchMinimum
        (.skipBelowTwitchMinimum reason, s1)
      else
        let ev2 := { decided.2 with betPlaced := true, betConfirmed := true }
        let s2 : PubSubState := {
          predictions := predSet s1.predictions eventID ev2,
          history := recordHistory s1.history streamer.username "PREDICTION" (-decision.amount) }
        (.placed decision, s2)

/-- `randomInt` from `twitch.go`: `rand.Int(rand.Reader, big.NewInt(max-min+1))`
yields a draw `r` uniform over `[0, max-min+1)`, made explicit here; the
result is `min + r` (or `min` when the range is trivial). -/
def randomInt (mn mx r : ℤ) : ℤ := if mx ≤ mn then mn else mn + r

/-- `randomPingInterval` from `pubsub.go`, in seconds, for the draw `r`. -/
def randomPingInterval (r : ℤ) : ℤ := randomInt 25 30 r

/-! ## Watch scheduler (`miner.go`, `Miner.pickStreamersToWatch`) -/

/-- The `watchPriority` enumeration of `miner.go`. -/
inductive WatchPriority where
  | order
  | streak
  | drops
  | subscribed
  | pointsAscending
  | pointsDescending
deriving Repr, DecidableEq

/-- `maxConcurrentWatchers` constant of `miner.go`. -/
def maxConcurrentWatchers : ℕ := 2

/-- `Miner.shouldPrioritizeStreak` from `miner.go`, with the wall clock
passed explicitly. -/
def shouldPrioritizeStreak (s : Streamer) (now : ℚ) : Bool :=
  match s.stream with
  | none => false
  | some st =>
    if !s.settings.watchStreak || !st.watchStreakMissing then false
    else if (match s.offlineAt with
             | some t => decide (now - t ≤ 30 * 60)
             | none => false) then false
    else decide (st.minuteWatched < 7)

/-- Candidate filter of `pickStreamersToWatch`: online streamers, skipping
any whose online transition is less than 30 seconds old; kept as
(index, streamer) pairs in input order. -/
def watchCandidates (now : ℚ) (streamers : List Streamer) : List (ℕ × Streamer) :=
  streamers.enum.filter (fun p =>
    p.2.isOnline &&
    (match p.2.onlineAt with
     | none => true
     | some t => !decide (now - t < 30)))

/-- The `add` closure of `pickStreamersToWatch`: append the candidate
unless the selection is full or its index was already taken. -/
def watchAdd (sel : List (ℕ × Streamer)) (p : ℕ × Streamer) : List (ℕ × Streamer) :=
  if maxConcurrentWatchers ≤ sel.length then sel
  else if sel.any (fun q => q.1 == p.1) then sel
  else sel ++ [p]

/-- The `pick` closure of `pickStreamersToWatch` (its early break is a
no-op under `watchAdd`, which ignores candidates once full). -/
def watchPick (sel : List (ℕ × Streamer)) (l : List (ℕ × Streamer)) :
    List (ℕ × Streamer) :=
  l.foldl watchAdd sel

/-- The per-priority candidate list each pass of `pickStreamersToWatch`
feeds to `pick`. -/
def watchPriorityList (candidates : List (ℕ × Streamer)) (now : ℚ) :
    WatchPriority → List (ℕ × Streamer)
  | .order => candidates
  | .streak => candidates.filter (fun p => shouldPrioritizeStreak p.2 now)
  | .drops => candidates.filter (fun p =>
      match p.2.stream with
      | none => false
      | some st => p.2.settings.claimDrops && !st.campaignIDs.isEmpty)
  | .subscribed => sortStable
      (fun a b => Streamer.TotalMultiplier b.2 ≤ Streamer.TotalMultiplier a.2)
      candidates
  | .pointsAscending => sortStable
      (fun a b => a.2.channelPoints ≤ b.2.channelPoints) candidates
  | .pointsDescending => sortStable
      (fun a b => b.2.channelPoints ≤ a.2.channelPoints) candidates

/-- Selection loop of `pickStreamersToWatch`: run the configured priority
passes, then the unconditional input-order fallback pass. -/
def pickSelected (priorities : List WatchPriority) (now : ℚ)
    (streamers : List Streamer) : List (ℕ × Streamer) :=
  let candidates := watchCandidates now streamers
  let selected := priorities.foldl
    (fun sel priority =>
      if maxConcurrentWatchers ≤ sel.length then sel
      else watchPick sel (watchPriorityList candidates now priority))
    []
  if selected.length < maxConcurrentWatchers then watchPick selected candidates
  else selected

/-- `Miner.pickStreamersToWatch` from `miner.go`: the selected streamers in
selection order. -/
def pickStreamersToWatch (priorities : List WatchPriority) (now : ℚ)
    (streamers : List Streamer) : List Streamer :=
  (pickSelected priorities now streamers).map (fun p => p.2)

/-! ## Concrete fixtures shared by witnesses and counterexamples -/

/-- A fully-specified sample `BetSettings`. -/
def sampleBet (strategy : String) (gap : ℤ) (stealth : Bool) : BetSettings :=
  { strategy := strategy, percentage := some 5, percentageGap := some gap,
    maxPoints := some 50000, minimumPoints := some 0, stealthMode := some stealth,
    filterCondition := none, delay := some 6, delayMode := "FROM_END" }

/-- A sample online `Streamer` with the given bet settings and balance. -/
def sampleStreamer (bet : BetSettings) (points : ℤ) : Streamer :=
  { username := "strm", channelID := "1", channelPoints := points,
    settings := { makePredictions := true, followRaid := false, claimDrops := false,
                  claimMoments := false, watchStreak := false, communityGoals := false,
                  bet := bet },
    isOnline := true, onlineAt := none, offlineAt := none, stream := none,
    activeMultipliers := [] }

/-! ## C4 — delay-mode window adjustment -/

/-- C4: for every prediction window length, configured delay and delay
mode, the adjusted placement window is min(delay, window) for FROM_START,
max(window − delay, 0) for FROM_END, window × delay for PERCENTAGE, and
the window unchanged for any unrecognized mode. -/
theorem C4_prediction_window_adjustment (s : Streamer) (window d : ℚ)
    (hd : s.settings.bet.delay = some d) :
    (s.settings.bet.delayMode = "FROM_START" →
      s.PredictionWindowSeconds window = min d window) ∧
    (s.settings.bet.delayMode = "FROM_END" →
      s.PredictionWindowSeconds window = max (window - d) 0) ∧
    (s.settings.bet.delayMode = "PERCENTAGE" →
      s.PredictionWindowSeconds window = window * d) ∧
    (s.settings.bet.delayMode ≠ "FROM_START" → s.settings.bet.delayMode ≠ "FROM_END" →
      s.settings.bet.delayMode ≠ "PERCENTAGE" →
      s.PredictionWindowSeconds window = window) := by
  refine ⟨fun h => ?_, fun h => ?_, fun h => ?_, fun h1 h2 h3 => ?_⟩
  · have e : s.PredictionWindowSeconds window = if d < window then d else window := by
      simp [Streamer.PredictionWindowSeconds, hd, h]
    rw [e]
    split_ifs with h'
    · exact (min_eq_left h'.le).symm
    · exact (min_eq_right (not_lt.mp h')).symm
  · have e : s.PredictionWindowSeconds window
        = if 0 < window - d then window - d else 0 := by
      simp [Streamer.PredictionWindowSeconds, hd, h]
    rw [e]
    split_ifs with h'
    · exact (max_eq_left h'.le).symm
    · exact (max_eq_right (not_lt.mp h')).symm
  · simp [Streamer.PredictionWindowSeconds, hd, h]
  · simp [Streamer.PredictionWindowSeconds, hd, h1, h2, h3]

/-- C4 witness: a FROM_END streamer with delay 6 on a 60-second window. -/
theorem C4_prediction_window_adjustment_witness :
    (sampleStreamer (sampleBet "SMART" 20 false) 0).PredictionWindowSeconds 60
        = max (60 - 6) 0 ∧
    (max (60 - 6 : ℚ) 0) = 54 :=
  ⟨(C4_prediction_window_adjustment _ 60 6 rfl).2.1 rfl, by norm_num⟩

/-! ## C9 — keepalive ping interval -/

/-- C9 (amended): for every valid draw the per-connection keepalive PING
interval is in the closed range [25s, 30s]: at least 25 and at most 30
seconds (the upper endpoint 30 is attainable). -/
theorem C9_ping_interval_range (r : ℤ) (h0 : 0 ≤ r) (h1 : r < 30 - 25 + 1) :
    25 ≤ randomPingInterval r ∧ randomPingInterval r ≤ 30 := by
  unfold randomPingInterval randomInt
  norm_num
  omega

/-- C9 counterexample: the valid draw 5 yields an interval of exactly 30
seconds, so the interval is not strictly below 30 as claimed. -/
theorem C9_counterexample :
    ((0:ℤ) ≤ 5 ∧ (5:ℤ) < 30 - 25 + 1) ∧
    randomPingInterval 5 = 30 ∧ ¬ randomPingInterval 5 < 30 := by
  refine ⟨by decide, by decide, by decide⟩

/-- C9 witness: the draw 2 yields an interval inside [25, 30]. -/
theorem C9_ping_interval_range_witness :
    ((0:ℤ) ≤ 2 ∧ (2:ℤ) < 30 - 25 + 1) ∧
    (25 ≤ randomPingInterval 2 ∧ randomPingInterval 2 ≤ 30) :=
  ⟨by decide, C9_ping_interval_range 2 (by decide) (by decide)⟩

/-! ## C10 — BetSettings.Default frame -/

/-- C10: Default fills exactly the unset fields with the defaults
(SMART, 5, 20, 50000, 0, false, FROM_END, 6 seconds), leaves every set
field (and the never-touched FilterCondition) unchanged, and is
idempotent. -/
theorem C10_default_frame (b : BetSettings) :
    (BetSettings.Default b).strategy = (if b.strategy = "" then "SMART" else b.strategy) ∧
    (BetSettings.Default b).percentage = some (b.percentage.getD 5) ∧
    (BetSettings.Default b).percentageGap = some (b.percentageGap.getD 20) ∧
    (BetSettings.Default b).maxPoints = some (b.maxPoints.getD 50000) ∧
    (BetSettings.Default b).minimumPoints = some (b.minimumPoints.getD 0) ∧
    (BetSettings.Default b).stealthMode = some (b.stealthMode.getD false) ∧
    (BetSettings.Default b).delayMode = (if b.delayMode = "" then "FROM_END" else b.delayMode) ∧
    (BetSettings.Default b).delay = some (b.delay.getD 6) ∧
    (BetSettings.Default b).filterCondition = b.filterCondition ∧
    BetSettings.Default (BetSettings.Default b) = BetSettings.Default b := by
  obtain ⟨st, pc, pg, mp, mn, sm, fc, dl, dm⟩ := b
  by_cases hs : st = "" <;> by_cases hd : dm = "" <;>
    cases pc <;> cases pg <;> cases mp <;> cases mn <;> cases sm <;> cases dl <;>
      simp [BetSettings.Default, hs, hd]

/-! ## C7 — voter-share invariant -/

/-- Sum of a scaled integer-cast map over a list. -/
theorem sum_map_cast_mul (l : List OutcomeInput) (c : ℚ) :
    (l.map (fun oc => (oc.totalUsers : ℚ) * c)).sum
      = (((l.map (fun oc => oc.totalUsers)).sum : ℤ) : ℚ) * c := by
  induction l with
  | nil => simp
  | cons a t ih =>
    simp only [List.map_cons, List.sum_cons, ih]
    push_cast
    ring

/-- C7: after every refresh of the outcome list the voter-share
percentages sum to 100 whenever the total voter count is positive, and
every share is 0 when the total voter count is 0. -/
theorem C7_shares_sum (inputs : List OutcomeInput) :
    (0 < (inputs.map (fun oc => oc.totalUsers)).sum →
      ((updateOutcomes inputs).map (fun o => o.percentageUsers)).sum = 100) ∧
    ((inputs.map (fun oc => oc.totalUsers)).sum = 0 →
      ∀ o ∈ updateOutcomes inputs, o.percentageUsers = 0) := by
  constructor
  · intro hpos
    have hT0 : (((inputs.map (fun oc => oc.totalUsers)).sum : ℤ) : ℚ) ≠ 0 := by
      have : (0:ℚ) < (((inputs.map (fun oc => oc.totalUsers)).sum : ℤ) : ℚ) := by
        exact_mod_cast hpos
      exact ne_of_gt this
    have hmap : (updateOutcomes inputs).map (fun o => o.percentageUsers)
        = inputs.map (fun oc => (oc.totalUsers : ℚ)
            * (100 / (((inputs.map (fun oc => oc.totalUsers)).sum : ℤ) : ℚ))) := by
      unfold updateOutcomes
      simp only [List.map_map]
      refine List.map_congr_left (fun oc hoc => ?_)
      simp only [Function.comp]
      rw [if_pos hpos, mul_div_assoc]
    rw [hmap, sum_map_cast_mul, mul_comm, div_mul_cancel₀ _ hT0]
  · intro h0 o ho
    unfold updateOutcomes at ho
    simp only [List.mem_map] at ho
    obtain ⟨oc, hoc, rfl⟩ := ho
    simp only []
    rw [if_neg (by omega)]

/-- Concrete outcome refresh input with voters 60 and 40. -/
def inputs6040 : List OutcomeInput :=
  [⟨"a", "A", "BLUE", 60, 900, 0⟩, ⟨"b", "B", "PINK", 40, 100, 0⟩]

/-- C7 witness: voters 60 and 40 give a positive total and shares summing
to 100. -/
theorem C7_shares_sum_witness :
    0 < (inputs6040.map (fun oc => oc.totalUsers)).sum ∧
    ((updateOutcomes inputs6040).map (fun o => o.percentageUsers)).sum = 100 :=
  ⟨by decide, (C7_shares_sum inputs6040).1 (by decide)⟩

/-! ## C3 — payout formula -/

/-- `goRound` agrees with Mathlib `round` on nonnegative arguments. -/
theorem goRound_eq_round (q : ℚ) (h : 0 ≤ q) : goRound q = round q := by
  rw [goRound, if_neg (not_lt.mpr h), round_eq]

/-- C3: for every resolved winning wager the payout is never below the
stake; it equals the stake in the degenerate cases (zero total or zero
winning-outcome stake), and otherwise equals round(stake × totalEventStake
/ winningOutcomeStake) floored at the stake. -/
theorem C3_payout (decision : PredictionDecision) (outcomes : List PredictionOutcome)
    (winningID : String) (hamt : 0 < decision.amount)
    (hwin : decision.outcomeID = winningID) :
    decision.amount ≤ payoutForOutcome decision outcomes winningID ∧
    (((outcomes.map (fun oc => oc.totalPoints)).sum = 0 ∨
        (outcomes.foldl (fun acc oc => if oc.id = winningID then oc.totalPoints else acc) 0) = 0) →
      payoutForOutcome decision outcomes winningID = decision.amount) ∧
    (0 ≤ (outcomes.map (fun oc => oc.totalPoints)).sum →
      0 ≤ (outcomes.foldl (fun acc oc => if oc.id = winningID then oc.totalPoints else acc) 0) →
      payoutForOutcome decision outcomes winningID
        = max (round ((decision.amount : ℚ)
            * ((((outcomes.map (fun oc => oc.totalPoints)).sum : ℤ) : ℚ)
              / ((outcomes.foldl (fun acc oc => if oc.id = winningID then oc.totalPoints else acc) 0 : ℤ) : ℚ))))
            decision.amount) := by
  have hg : ¬ (decision.amount ≤ 0 ∨ decision.outcomeID ≠ winningID) := by
    push_neg
    exact ⟨hamt, hwin⟩
  refine ⟨?_, ?_, ?_⟩
  · simp only [payoutForOutcome]
    rw [if_neg hg]
    split_ifs with h1 h2
    · exact le_refl _
    · exact le_refl _
    · exact not_lt.mp h2
  · intro hdeg
    simp only [payoutForOutcome]
    rw [if_neg hg, if_pos hdeg]
  · intro hT hW
    simp only [payoutForOutcome]
    rw [if_neg hg]
    by_cases hdeg : (outcomes.map (fun oc => oc.totalPoints)).sum = 0 ∨
        (outcomes.foldl (fun acc oc => if oc.id = winningID then oc.totalPoints else acc) 0) = 0
    · rw [if_pos hdeg]
      rcases hdeg with h0 | h0 <;>
        rw [h0] <;> simp [max_eq_right hamt.le]
    · rw [if_neg hdeg]
      have harg : (0:ℚ) ≤ (decision.amount : ℚ)
          * ((((outcomes.map (fun oc => oc.totalPoints)).sum : ℤ) : ℚ)
            / ((outcomes.foldl (fun acc oc => if oc.id = winningID then oc.totalPoints else acc) 0 : ℤ) : ℚ)) := by
        apply mul_nonneg
        · exact_mod_cast hamt.le
        · apply div_nonneg <;> exact_mod_cast ‹_›
      rw [goRound_eq_round _ harg]
      split_ifs with h'
      · exact (max_eq_right h'.le).symm
      · exact (max_eq_left (not_lt.mp h')).symm

/-- The winning decision of the concrete payout examples. -/
def winDecision : PredictionDecision := ⟨0, "w", 100⟩

/-- Outcomes with total stake 1000 and winning-outcome stake 400. -/
def winOutcomes : List PredictionOutcome :=
  [{ PredictionOutcome.zero with id := "w", totalPoints := 400 },
   { PredictionOutcome.zero with id := "l", totalPoints := 600 }]

/-- Outcomes where the winning id is absent, so its stake scans to 0. -/
def degOutcomes : List PredictionOutcome :=
  [{ PredictionOutcome.zero with id := "x", totalPoints := 500 }]

/-- C3 witness: stake 100 over a 1000/400 split pays 250, and a
degenerate winning-outcome stake of 0 pays back exactly the stake. -/
theorem C3_payout_witness :
    ((0:ℤ) < 100 ∧ payoutForOutcome winDecision winOutcomes "w" = 250) ∧
    payoutForOutcome winDecision degOutcomes "w" = 100 := by
  have h1 := (C3_payout winDecision winOutcomes "w" (by decide) rfl).2.2
    (by decide) (by decide)
  have h2 := (C3_payout winDecision degOutcomes "w" (by decide) rfl).2.1
    (by decide)
  refine ⟨⟨by decide, ?_⟩, ?_⟩
  · rw [h1]
    simp [winOutcomes, winDecision, PredictionOutcome.zero]
    norm_num [round_eq]
  · rw [h2]
    decide

/-! ## C1 — SMART strategy gap boundary -/

/-- C1 (amended): under strategy SMART with at least two outcomes, after
the stable descending sort by voter share the fallback to HIGH_ODDS is
taken exactly when the top two shares differ by strictly less than the
configured gap; in particular for shares 60% and 40%, gap=20 selects
MOST_VOTED (since 20 < 20 fails) and gap=10 also selects MOST_VOTED. -/
theorem C1_smart_gap (outcomes : List PredictionOutcome) (settings : BetSettings)
    (hstrat : settings.strategy = "SMART")
    (a b : PredictionOutcome) (rest : List PredictionOutcome)
    (hsort : sortStable (fun x y => y.percentageUsers ≤ x.percentageUsers) outcomes
      = a :: b :: rest) :
    selectOutcome outcomes settings =
      if |a.percentageUsers - b.percentageUsers|
          < ((settings.percentageGap.getD 20 : ℤ) : ℚ) then
        maxIndex outcomes (fun o => o.odds)
      else
        maxIndex outcomes (fun o => (o.totalUsers : ℚ)) := by
  have hne : outcomes ≠ [] := by
    intro h
    rw [h] at hsort
    simp [sortStable] at hsort
  cases hpg : settings.percentageGap with
  | none => simp [selectOutcome, hne, hstrat, hpg, hsort]
  | some g => simp [selectOutcome, hne, hstrat, hpg, hsort]

/-- First outcome produced by refreshing `inputs6040`. -/
def outcomeA : PredictionOutcome := ⟨"a", "A", "BLUE", 60, 900, 0, 60, 10/9, 90⟩

/-- Second outcome produced by refreshing `inputs6040`. -/
def outcomeB : PredictionOutcome := ⟨"b", "B", "PINK", 40, 100, 0, 40, 10, 10⟩

/-- Refreshing the 60/40 inputs yields the two concrete outcomes. -/
theorem updateOutcomes_inputs6040 : updateOutcomes inputs6040 = [outcomeA, outcomeB] := by
  norm_num [updateOutcomes, inputs6040, outcomeA, outcomeB]

/-- C1 counterexample: with voter shares 60% and 40% and gap 20 the code
selects index 0 (the MOST_VOTED outcome), not the HIGH_ODDS fallback,
which here is index 1. -/
theorem C1_counterexample :
    selectOutcome (updateOutcomes inputs6040) (sampleBet "SMART" 20 false) = 0 ∧
    maxIndex (updateOutcomes inputs6040) (fun o => o.odds) = 1 ∧
    (updateOutcomes inputs6040).map (fun o => o.percentageUsers) = [60, 40] := by
  rw [updateOutcomes_inputs6040]
  refine ⟨?_, ?_, ?_⟩
  · norm_num [selectOutcome, sampleBet, sortStable, insertStable, maxIndex, maxIndexGo,
      outcomeA, outcomeB]
    decide
  · norm_num [maxIndex, maxIndexGo, outcomeA, outcomeB]
  · norm_num [outcomeA, outcomeB]

/-- C1 witness: shares 60/40 sort to [A, B]; both gap 20 and gap 10
select MOST_VOTED. -/
theorem C1_smart_gap_witness :
    sortStable (fun x y => y.percentageUsers ≤ x.percentageUsers)
        (updateOutcomes inputs6040) = outcomeA :: outcomeB :: [] ∧
    selectOutcome (updateOutcomes inputs6040) (sampleBet "SMART" 20 false)
        = maxIndex (updateOutcomes inputs6040) (fun o => (o.totalUsers : ℚ)) ∧
    selectOutcome (updateOutcomes inputs6040) (sampleBet "SMART" 10 false)
        = maxIndex (updateOutcomes inputs6040) (fun o => (o.totalUsers : ℚ)) := by
  have hsort : sortStable (fun x y => y.percentageUsers ≤ x.percentageUsers)
      (updateOutcomes inputs6040) = outcomeA :: outcomeB :: [] := by
    rw [updateOutcomes_inputs6040]
    norm_num [sortStable, insertStable, outcomeA, outcomeB]
  have h20 := C1_smart_gap (updateOutcomes inputs6040) (sampleBet "SMART" 20 false)
    rfl outcomeA outcomeB [] hsort
  have h10 := C1_smart_gap (updateOutcomes inputs6040) (sampleBet "SMART" 10 false)
    rfl outcomeA outcomeB [] hsort
  refine ⟨hsort, ?_, ?_⟩
  · rw [h20, if_neg (by norm_num [outcomeA, outcomeB, sampleBet])]
  · rw [h10, if_neg (by norm_num [outcomeA, outcomeB, sampleBet])]

/-! ## C2 — stake sizing -/

/-- `goTrunc` agrees with the floor on nonnegative arguments. -/
theorem goTrunc_eq_floor (q : ℚ) (h : 0 ≤ q) : goTrunc q = ⌊q⌋ := by
  rw [goTrunc, if_neg (not_lt.mpr h)]

/-- Go's `if amount > max then max else amount` cap is the minimum. -/
theorem goCap_eq_min (x y : ℤ) : (if y < x then y else x) = min x y := by
  rw [min_def]
  split_ifs <;> omega

/-- Go's `if x-1 < 1 then 1 else x-1` floor-at-one is the maximum. -/
theorem goFloorOne_eq_max (x : ℤ) : (if x - 1 < 1 then 1 else x - 1) = max (x - 1) 1 := by
  rw [max_def]
  split_ifs <;> omega

/-- C2 (amended): for nonnegative balance and percentage, when an outcome
is selected the stake is floor(balance × percentage / 100) capped at the
configured max stake; and if stealth mode is on, the chosen outcome's top
stake is positive, and the capped stake reaches it, the stake becomes
topStake − 1 floored at 1; balance 10000, percentage 5 and top stake 300
give 299 (see the witness). -/
theorem C2_stake_sizing (p : PredictionEvent) (balance : ℤ)
    (hb : 0 ≤ balance)
    (hpc : 0 ≤ p.streamer.settings.bet.percentage.getD 5)
    (hch : 0 ≤ selectOutcome p.outcomes p.streamer.settings.bet)
    (hlt : selectOutcome p.outcomes p.streamer.settings.bet < (p.outcomes.length : ℤ)) :
    (p.Decide balance).1.amount =
      (let a0 : ℤ := ⌊(balance : ℚ) * ((p.streamer.settings.bet.percentage.getD 5 : ℤ) : ℚ) / 100⌋
       let a1 : ℤ := match p.streamer.settings.bet.maxPoints with
         | some mp => min a0 mp
         | none => a0
       let chosen := p.outcomes.getD
         (selectOutcome p.outcomes p.streamer.settings.bet).toNat PredictionOutcome.zero
       if p.streamer.settings.bet.stealthMode = some true ∧ chosen.topPoints > 0 ∧
           chosen.topPoints ≤ a1 then max (chosen.topPoints - 1) 1
       else a1) := by
  have hne : p.outcomes ≠ [] := by
    intro h
    rw [selectOutcome, if_pos h] at hch
    omega
  unfold PredictionEvent.Decide
  rw [if_neg hne, if_neg (by push_neg; exact ⟨hch, hlt⟩)]
  cases hpcv : p.streamer.settings.bet.percentage with
  | none =>
    have hq : (0:ℚ) ≤ (balance : ℚ) * (((5:ℤ) : ℚ) / 100) := by positivity
    simp only [hpcv, Option.getD_none]
    rw [goTrunc_eq_floor _ hq, mul_div_assoc]
    cases hmp : p.streamer.settings.bet.maxPoints with
    | none => simp [hmp, goFloorOne_eq_max]
    | some mp => simp [hmp, goCap_eq_min, goFloorOne_eq_max]
  | some v =>
    have hv : (0:ℤ) ≤ v := by
      rw [hpcv] at hpc
      simpa using hpc
    have hq : (0:ℚ) ≤ (balance : ℚ) * (((v:ℤ) : ℚ) / 100) := by
      apply mul_nonneg
      · exact_mod_cast hb
      · apply div_nonneg
        · exact_mod_cast hv
        · norm_num
    simp only [hpcv, Option.getD_some]
    rw [goTrunc_eq_floor _ hq, mul_div_assoc]
    cases hmp : p.streamer.settings.bet.maxPoints with
    | none => simp [hmp, goFloorOne_eq_max]
    | some mp => simp [hmp, goCap_eq_min, goFloorOne_eq_max]

/-- Raw characterization of the stake amount computed by `Decide`, in the
shape of the Go code, used to evaluate concrete runs. -/
theorem decide_amount_raw (p : PredictionEvent) (balance : ℤ)
    (hch : 0 ≤ selectOutcome p.outcomes p.streamer.settings.bet)
    (hlt : selectOutcome p.outcomes p.streamer.settings.bet < (p.outcomes.length : ℤ)) :
    (p.Decide balance).1.amount =
      (let percentage : ℤ := match p.streamer.settings.bet.percentage with
         | none => 5
         | some v => v
       let a0 := goTrunc ((balance : ℚ) * ((percentage : ℚ) / 100))
       let a1 := match p.streamer.settings.bet.maxPoints with
         | some mp => if a0 > mp then mp else a0
         | none => a0
       let chosen := p.outcomes.getD
         (selectOutcome p.outcomes p.streamer.settings.bet).toNat PredictionOutcome.zero
       if p.streamer.settings.bet.stealthMode = some true ∧ chosen.topPoints > 0 ∧
           chosen.topPoints ≤ a1 then
         (if chosen.topPoints - 1 < 1 then 1 else chosen.topPoints - 1)
       else a1) := by
  have hne : p.outcomes ≠ [] := by
    intro h
    rw [selectOutcome, if_pos h] at hch
    omega
  unfold PredictionEvent.Decide
  rw [if_neg hne, if_neg (by push_neg; exact ⟨hch, hlt⟩)]

/-- A one-outcome ACTIVE prediction event of a stealth-mode NUMBER_1
streamer with balance 10000, whose outcome has the given top stake. -/
def stealthEvent (top : ℤ) : PredictionEvent :=
  { streamer := sampleStreamer (sampleBet "NUMBER_1" 20 true) 10000,
    eventID := "e1", title := "t", status := "ACTIVE", createdAt := 0,
    windowSeconds := 60,
    outcomes := [{ PredictionOutcome.zero with id := "s1", topPoints := top }],
    decision := PredictionDecision.zero, betPlaced := false,
    betConfirmed := false, resultType := "" }

/-- C2 witness: balance 10000, percentage 5, stealth on, top stake 300
yield a final stake of 299. -/
theorem C2_stake_sizing_witness :
    ((0:ℤ) ≤ 10000) ∧ ((stealthEvent 300).Decide 10000).1.amount = 299 := by
  have h := C2_stake_sizing (stealthEvent 300) 10000 (by decide) (by decide)
    (by decide) (by decide)
  have hsel : selectOutcome (stealthEvent 300).outcomes
      (stealthEvent 300).streamer.settings.bet = 0 := by decide
  refine ⟨by decide, ?_⟩
  rw [h, hsel]
  norm_num [stealthEvent, sampleBet, sampleStreamer, PredictionOutcome.zero,
    min_def, max_def]

/-- C2 counterexample: stealth on but top stake 0 (no visible bettor):
the code keeps the stake 500 although 500 ≥ 0, while the claim as stated
would reduce it to max(0 − 1, 1) = 1. -/
theorem C2_counterexample :
    ((stealthEvent 0).Decide 10000).1.amount = 500 ∧
    (stealthEvent 0).streamer.settings.bet.stealthMode = some true ∧
    ((stealthEvent 0).outcomes.getD 0 PredictionOutcome.zero).topPoints = 0 ∧
    ¬ ((stealthEvent 0).Decide 10000).1.amount = max (0 - 1) 1 := by
  have hsel : selectOutcome (stealthEvent 0).outcomes
      (stealthEvent 0).streamer.settings.bet = 0 := by decide
  have h : ((stealthEvent 0).Decide 10000).1.amount = 500 := by
    rw [decide_amount_raw (stealthEvent 0) 10000 (by decide) (by decide), hsel]
    norm_num [stealthEvent, sampleBet, sampleStreamer, PredictionOutcome.zero,
      goTrunc]
  refine ⟨h, by decide, by decide, ?_⟩
  rw [h]
  decide

/-! ## C8 — below-minimum stake skip -/

/-- Raw characterization of the outcome id chosen by `Decide`. -/
theorem decide_outcomeID_raw (p : PredictionEvent) (balance : ℤ)
    (hch : 0 ≤ selectOutcome p.outcomes p.streamer.settings.bet)
    (hlt : selectOutcome p.outcomes p.streamer.settings.bet < (p.outcomes.length : ℤ)) :
    (p.Decide balance).1.outcomeID =
      (p.outcomes.getD (selectOutcome p.outcomes p.streamer.settings.bet).toNat
        PredictionOutcome.zero).id := by
  have hne : p.outcomes ≠ [] := by
    intro h
    rw [selectOutcome, if_pos h] at hch
    omega
  unfold PredictionEvent.Decide
  rw [if_neg hne, if_neg (by push_neg; exact ⟨hch, hlt⟩)]

/-- C8: whenever the final computed stake is below the Twitch minimum of
10, the wager is not submitted and the skip reason is: balance too low
when the balance is below 10; configured cap too low when the balance is
not the cause and the max-stake cap is below 10; computed stake too low
otherwise. -/
theorem C8_min_stake_skip (s : PubSubState) (eventID : String) (ev : PredictionEvent)
    (hev : predLookup s.predictions eventID = some ev)
    (hstatus : ev.status = "ACTIVE")
    (hmin : ∀ mp, ev.streamer.settings.bet.minimumPoints = some mp →
      mp < ev.streamer.channelPoints)
    (hout : (ev.Decide ev.streamer.channelPoints).1.outcomeID ≠ "")
    (hamt : (ev.Decide ev.streamer.channelPoints).1.amount < 10) :
    (placePrediction s eventID).1 = PlaceResult.skipBelowTwitchMinimum
      (if ev.streamer.channelPoints < 10 then SkipReason.balanceBelowTwitchMinimum
       else match ev.streamer.settings.bet.maxPoints with
         | some mp =>
           if mp < 10 then SkipReason.maxPointsBelowTwitchMinimum
           else SkipReason.calculatedStakeBelowTwitchMinimum
         | none => SkipReason.calculatedStakeBelowTwitchMinimum) ∧
    (∀ d, (placePrediction s eventID).1 ≠ PlaceResult.placed d) := by
  have hminb : (match ev.streamer.settings.bet.minimumPoints with
      | some mp => decide (ev.streamer.channelPoints ≤ mp)
      | none => false) = false := by
    cases hm : ev.streamer.settings.bet.minimumPoints with
    | none => rfl
    | some mp =>
      simp only [decide_eq_false_iff_not, not_le]
      exact hmin mp hm
  have key : (placePrediction s eventID).1 = PlaceResult.skipBelowTwitchMinimum
      (if ev.streamer.channelPoints < 10 then SkipReason.balanceBelowTwitchMinimum
       else match ev.streamer.settings.bet.maxPoints with
         | some mp =>
           if mp < 10 then SkipReason.maxPointsBelowTwitchMinimum
           else SkipReason.calculatedStakeBelowTwitchMinimum
         | none => SkipReason.calculatedStakeBelowTwitchMinimum) := by
    unfold placePrediction
    rw [hev]
    simp only [hminb, Bool.false_eq_true, if_false]
    rw [if_neg (by simp [hstatus]), if_neg hout, if_pos hamt]
  refine ⟨key, fun d => ?_⟩
  rw [key]
  simp

/-- An ACTIVE event of a non-stealth NUMBER_1 streamer with balance 100,
whose computed stake 5 is below the platform minimum. -/
def lowStakeEvent : PredictionEvent :=
  { streamer := sampleStreamer (sampleBet "NUMBER_1" 20 false) 100,
    eventID := "e8", title := "t", status := "ACTIVE", createdAt := 0,
    windowSeconds := 60,
    outcomes := [{ PredictionOutcome.zero with id := "s1" }],
    decision := PredictionDecision.zero, betPlaced := false,
    betConfirmed := false, resultType := "" }

/-- Registry holding only `lowStakeEvent`. -/
def lowStakeState : PubSubState :=
  { predictions := [("e8", lowStakeEvent)], history := [] }

/-- C8 witness: balance 100, percentage 5 computes stake 5 < 10 while the
balance is at least 10 and the cap 50000 is at least 10, so the skip
names the computed stake. -/
theorem C8_min_stake_skip_witness :
    (placePrediction lowStakeState "e8").1
      = PlaceResult.skipBelowTwitchMinimum SkipReason.calculatedStakeBelowTwitchMinimum ∧
    (∀ d, (placePrediction lowStakeState "e8").1 ≠ PlaceResult.placed d) := by
  have hamt : (lowStakeEvent.Decide lowStakeEvent.streamer.channelPoints).1.amount = 5 := by
    rw [decide_amount_raw _ _ (by decide) (by decide)]
    have hsel : selectOutcome lowStakeEvent.outcomes lowStakeEvent.streamer.settings.bet
        = 0 := by decide
    rw [hsel]
    norm_num [lowStakeEvent, sampleBet, sampleStreamer, PredictionOutcome.zero, goTrunc]
  have hout : (lowStakeEvent.Decide lowStakeEvent.streamer.channelPoints).1.outcomeID
      ≠ "" := by
    rw [decide_outcomeID_raw _ _ (by decide) (by decide)]
    decide
  have h := C8_min_stake_skip lowStakeState "e8" lowStakeEvent
    (by simp [lowStakeState, predLookup]) rfl
    (by
      intro mp hmp
      have h0 : some (0:ℤ) = some mp := hmp
      simp only [Option.some.injEq] at h0
      rw [← h0]
      decide)
    hout (by rw [hamt]; norm_num)
  refine ⟨?_, h.2⟩
  rw [h.1]
  decide

/-! ## C5 — idempotent resolution -/

/-- Looking a key up after deleting it always fails. -/
theorem predLookup_predDelete (l : List (String × PredictionEvent)) (eid : String) :
    predLookup (predDelete l eid) eid = none := by
  induction l with
  | nil => rfl
  | cons kv rest ih =>
    obtain ⟨k, e⟩ := kv
    by_cases h : k = eid
    · simp [predDelete, h, ih]
    · simp [predDelete, predLookup, h, ih]

/-- A user-result message for an unregistered event id changes nothing. -/
theorem processPredictionUser_not_found (s : PubSubState) (eid mt : String)
    (r : Option ResultMsg) (h : predLookup s.predictions eid = none) :
    processPredictionUser s eid mt r = s := by
  unfold processPredictionUser
  rw [h]

/-- A channel event-updated message for an unregistered event id changes
nothing. -/
theorem processPredictionChannelUpdated_not_found (s : PubSubState) (eid : String)
    (em : ChannelEventUpdate) (h : predLookup s.predictions eid = none) :
    processPredictionChannelUpdated s eid em = s := by
  unfold processPredictionChannelUpdated
  rw [h]

/-- The channel-side resolver removes the event whenever the committed
stake is nonzero, the tag is unset, and the status is a cancellation or
RESOLVED with a winning outcome. -/
theorem resolve_fires (ev : PredictionEvent) (em : ChannelEventUpdate) (h : History)
    (hamt : ev.decision.amount ≠ 0) (htag : ev.resultType = "")
    (hres : goUpper em.status = "CANCELED" ∨ goUpper em.status = "CANCELLED" ∨
      (goUpper em.status = "RESOLVED" ∧ em.winningID ≠ "")) :
    (resolvePredictionFromChannel ev em h).2.2 = true := by
  unfold resolvePredictionFromChannel
  rw [if_neg (by simp [hamt, htag])]
  simp only []
  rcases hres with hst | hst | ⟨hst, hw⟩
  · rw [if_neg (by simp [hst]), if_pos (Or.inl hst)]
  · rw [if_neg (by simp [hst]), if_pos (Or.inr hst)]
  · rw [if_neg (by simp [hst]), if_neg (by rw [hst]; decide), if_neg hw]

/-- C5: once a prediction event has been resolved by either path, later
resolution attempts are no-ops. Part 1: the channel-side resolver never
touches an event whose resolved-result tag is already set. Part 2: after
a per-user result resolves a registered event, the event is gone from the
registry and any duplicate user result or channel-status update for the
same id leaves the state (tag, history ledger, registry) unchanged.
Part 3: the same after a channel-side resolution that fires (nonzero
committed stake, unset tag, and a cancellation or a RESOLVED status with
a winning outcome). -/
theorem C5_idempotent_resolution :
    (∀ (ev : PredictionEvent) (em : ChannelEventUpdate) (h : History),
      ev.resultType ≠ "" → resolvePredictionFromChannel ev em h = (ev, h, false)) ∧
    (∀ (s : PubSubState) (eid : String) (ev : PredictionEvent) (res : ResultMsg),
      predLookup s.predictions eid = some ev →
      predLookup (processPredictionUser s eid "prediction-result" (some res)).predictions
          eid = none ∧
      (∀ (mt : String) (r : Option ResultMsg),
        processPredictionUser (processPredictionUser s eid "prediction-result" (some res))
            eid mt r
          = processPredictionUser s eid "prediction-result" (some res)) ∧
      (∀ em : ChannelEventUpdate,
        processPredictionChannelUpdated
            (processPredictionUser s eid "prediction-result" (some res)) eid em
          = processPredictionUser s eid "prediction-result" (some res))) ∧
    (∀ (s : PubSubState) (eid : String) (ev : PredictionEvent) (em : ChannelEventUpdate),
      predLookup s.predictions eid = some ev →
      ev.decision.amount ≠ 0 → ev.resultType = "" →
      (goUpper em.status = "CANCELED" ∨ goUpper em.status = "CANCELLED" ∨
        (goUpper em.status = "RESOLVED" ∧ em.winningID ≠ "")) →
      predLookup (processPredictionChannelUpdated s eid em).predictions eid = none ∧
      (∀ (mt : String) (r : Option ResultMsg),
        processPredictionUser (processPredictionChannelUpdated s eid em) eid mt r
          = processPredictionChannelUpdated s eid em) ∧
      (∀ em2 : ChannelEventUpdate,
        processPredictionChannelUpdated (processPredictionChannelUpdated s eid em) eid em2
          = processPredictionChannelUpdated s eid em)) := by
  refine ⟨?_, ?_, ?_⟩
  · intro ev em h htag
    unfold resolvePredictionFromChannel
    rw [if_pos (Or.inr htag)]
  · intro s eid ev res hev
    have hgone : predLookup (processPredictionUser s eid "prediction-result"
        (some res)).predictions eid = none := by
      unfold processPredictionUser
      rw [hev]
      dsimp only
      rw [if_neg (by decide), if_pos (by decide)]
      exact predLookup_predDelete s.predictions eid
    exact ⟨hgone,
      fun mt r => processPredictionUser_not_found _ eid mt r hgone,
      fun em => processPredictionChannelUpdated_not_found _ eid em hgone⟩
  · intro s eid ev em hev hamt htag hres
    have hgone : predLookup (processPredictionChannelUpdated s eid em).predictions
        eid = none := by
      cases hoc : em.outcomes with
      | none =>
        unfold processPredictionChannelUpdated
        rw [hev]
        dsimp only
        rw [hoc]
        have hfire := resolve_fires
          { ev with status := goUpper em.status, outcomes := ev.outcomes }
          em s.history hamt htag hres
        rw [hfire]
        dsimp only
        exact predLookup_predDelete _ eid
      | some oc =>
        unfold processPredictionChannelUpdated
        rw [hev]
        dsimp only
        rw [hoc]
        have hfire := resolve_fires
          { ev with status := goUpper em.status, outcomes := updateOutcomes oc }
          em s.history hamt htag hres
        rw [hfire]
        dsimp only
        exact predLookup_predDelete _ eid
    exact ⟨hgone,
      fun mt r => processPredictionUser_not_found _ eid mt r hgone,
      fun em2 => processPredictionChannelUpdated_not_found _ eid em2 hgone⟩

/-- A placed, confirmed prediction event awaiting resolution. -/
def resolvedEventC5 : PredictionEvent :=
  { streamer := sampleStreamer (sampleBet "NUMBER_1" 20 false) 10000,
    eventID := "e5", title := "t", status := "LOCKED", createdAt := 0,
    windowSeconds := 60,
    outcomes := [{ PredictionOutcome.zero with id := "w", totalPoints := 400 },
                 { PredictionOutcome.zero with id := "l", totalPoints := 600 }],
    decision := ⟨0, "w", 100⟩, betPlaced := true, betConfirmed := true,
    resultType := "" }

/-- Registry holding only `resolvedEventC5`. -/
def stateC5 : PubSubState :=
  { predictions := [("e5", resolvedEventC5)], history := [] }

/-- A WIN user-result message worth 250 points. -/
def winMsg : ResultMsg := ⟨"WIN", 250⟩

/-- A channel event-updated payload carrying a RESOLVED status. -/
def emC5 : ChannelEventUpdate := { status := "RESOLVED", winningID := "w", outcomes := none }

/-- C5 witness: after a WIN result resolves the registered event, the id
is gone from the registry and both a duplicate WIN result and a
channel-status RESOLVED update leave the state unchanged. -/
theorem C5_idempotent_resolution_witness :
    predLookup (processPredictionUser stateC5 "e5" "prediction-result"
        (some winMsg)).predictions "e5" = none ∧
    processPredictionUser (processPredictionUser stateC5 "e5" "prediction-result"
        (some winMsg)) "e5" "prediction-result" (some winMsg)
      = processPredictionUser stateC5 "e5" "prediction-result" (some winMsg) ∧
    processPredictionChannelUpdated (processPredictionUser stateC5 "e5"
        "prediction-result" (some winMsg)) "e5" emC5
      = processPredictionUser stateC5 "e5" "prediction-result" (some winMsg) := by
  have h := C5_idempotent_resolution.2.1 stateC5 "e5" resolvedEventC5 winMsg
    (by simp [stateC5, predLookup])
  exact ⟨h.1, h.2.1 "prediction-result" (some winMsg), h.2.2 emC5⟩

/-! ## C6 — watch scheduler selection -/

/-- Anything `add` produces was already selected or is the new candidate. -/
theorem mem_watchAdd (sel : List (ℕ × Streamer)) (p x : ℕ × Streamer)
    (h : x ∈ watchAdd sel p) : x ∈ sel ∨ x = p := by
  unfold watchAdd at h
  split_ifs at h
  · exact Or.inl h
  · exact Or.inl h
  · rcases List.mem_append.mp h with h1 | h1
    · exact Or.inl h1
    · simp only [List.mem_singleton] at h1
      exact Or.inr h1

/-- `add` never grows the selection beyond the concurrency cap. -/
theorem watchAdd_length_le (sel : List (ℕ × Streamer)) (p : ℕ × Streamer)
    (h : sel.length ≤ maxConcurrentWatchers) :
    (watchAdd sel p).length ≤ maxConcurrentWatchers := by
  unfold watchAdd
  split_ifs with h1 h2
  · exact h
  · exact h
  · simp only [List.length_append, List.length_singleton]
    unfold maxConcurrentWatchers at h h1 ⊢
    omega

/-- `add` keeps the selected indices pairwise distinct. -/
theorem watchAdd_nodup (sel : List (ℕ × Streamer)) (p : ℕ × Streamer)
    (h : (sel.map Prod.fst).Nodup) : ((watchAdd sel p).map Prod.fst).Nodup := by
  unfold watchAdd
  split_ifs with h1 h2
  · exact h
  · exact h
  · rw [List.map_append, List.nodup_append]
    refine ⟨h, by simp, ?_⟩
    intro a ha hb
    simp only [List.map_cons, List.map_nil, List.mem_singleton] at hb
    subst hb
    rw [List.any_eq_true] at h2
    push_neg at h2
    obtain ⟨q, hq, hq1⟩ := List.mem_map.mp ha
    exact absurd (by simpa using hq1) (h2 q hq)

/-- `pick` invariants: cap, distinct indices, and provenance. -/
theorem watchPick_length_le (l : List (ℕ × Streamer)) :
    ∀ sel, sel.length ≤ maxConcurrentWatchers →
      (watchPick sel l).length ≤ maxConcurrentWatchers := by
  induction l with
  | nil => intro sel h; exact h
  | cons p rest ih =>
    intro sel h
    exact ih _ (watchAdd_length_le sel p h)

theorem watchPick_nodup (l : List (ℕ × Streamer)) :
    ∀ sel, (sel.map Prod.fst).Nodup → ((watchPick sel l).map Prod.fst).Nodup := by
  induction l with
  | nil => intro sel h; exact h
  | cons p rest ih =>
    intro sel h
    exact ih _ (watchAdd_nodup sel p h)

theorem mem_watchPick (l : List (ℕ × Streamer)) :
    ∀ sel x, x ∈ watchPick sel l → x ∈ sel ∨ x ∈ l := by
  induction l with
  | nil => intro sel x h; exact Or.inl h
  | cons p rest ih =>
    intro sel x h
    rcases ih _ x h with h1 | h1
    · rcases mem_watchAdd sel p x h1 with h2 | h2
      · exact Or.inl h2
      · exact Or.inr (by simp [h2])
    · exact Or.inr (List.mem_cons_of_mem _ h1)

/-- Every candidate of a priority pass comes from the filtered candidate
list. -/
theorem mem_watchPriorityList (candidates : List (ℕ × Streamer)) (now : ℚ)
    (pr : WatchPriority) (x : ℕ × Streamer)
    (h : x ∈ watchPriorityList candidates now pr) : x ∈ candidates := by
  cases pr with
  | order => exact h
  | streak => exact (List.mem_filter.mp h).1
  | drops => exact (List.mem_filter.mp h).1
  | subscribed => exact mem_sortStable _ x _ h
  | pointsAscending => exact mem_sortStable _ x _ h
  | pointsDescending => exact mem_sortStable _ x _ h

/-- Every filtered candidate is online and past the 30-second debounce. -/
theorem mem_watchCandidates (now : ℚ) (streamers : List Streamer)
    (p : ℕ × Streamer) (h : p ∈ watchCandidates now streamers) :
    p.2.isOnline = true ∧ ∀ t, p.2.onlineAt = some t → ¬ now - t < 30 := by
  obtain ⟨hm, hcond⟩ := List.mem_filter.mp h
  rw [Bool.and_eq_true] at hcond
  refine ⟨hcond.1, fun t ht => ?_⟩
  have h2 := hcond.2
  rw [ht] at h2
  simp only [Bool.not_eq_true'] at h2
  exact of_decide_eq_false h2

/-- The selection loop preserves the cap, distinctness and provenance. -/
theorem pickSelectedFold_inv (candidates : List (ℕ × Streamer)) (now : ℚ)
    (priorities : List WatchPriority) :
    ∀ sel, sel.length ≤ maxConcurrentWatchers → (sel.map Prod.fst).Nodup →
      (∀ x ∈ sel, x ∈ candidates) →
      (priorities.foldl
        (fun sel priority =>
          if maxConcurrentWatchers ≤ sel.length then sel
          else watchPick sel (watchPriorityList candidates now priority)) sel).length
          ≤ maxConcurrentWatchers ∧
      ((priorities.foldl
        (fun sel priority =>
          if maxConcurrentWatchers ≤ sel.length then sel
          else watchPick sel (watchPriorityList candidates now priority)) sel).map
            Prod.fst).Nodup ∧
      (∀ x ∈ priorities.foldl
        (fun sel priority =>
          if maxConcurrentWatchers ≤ sel.length then sel
          else watchPick sel (watchPriorityList candidates now priority)) sel,
        x ∈ candidates) := by
  induction priorities with
  | nil => intro sel h1 h2 h3; exact ⟨h1, h2, h3⟩
  | cons pr rest ih =>
    intro sel h1 h2 h3
    simp only [List.foldl_cons]
    by_cases hfull : maxConcurrentWatchers ≤ sel.length
    · rw [if_pos hfull]
      exact ih sel h1 h2 h3
    · rw [if_neg hfull]
      refine ih _ (watchPick_length_le _ sel h1) (watchPick_nodup _ sel h2) ?_
      intro x hx
      rcases mem_watchPick _ sel x hx with hx1 | hx1
      · exact h3 x hx1
      · exact mem_watchPriorityList candidates now pr x hx1

/-- C6: every selection round of the watch scheduler picks at most 2
streamers, the picked indices are pairwise distinct (so at most 2 distinct
channels), every picked streamer is online, and none transitioned online
less than 30 seconds before the selection instant. -/
theorem C6_watch_scheduler (priorities : List WatchPriority) (now : ℚ)
    (streamers : List Streamer) :
    pickStreamersToWatch priorities now streamers
      = (pickSelected priorities now streamers).map (fun p => p.2) ∧
    (pickStreamersToWatch priorities now streamers).length ≤ 2 ∧
    ((pickSelected priorities now streamers).map Prod.fst).Nodup ∧
    ∀ s ∈ pickStreamersToWatch priorities now streamers,
      s.isOnline = true ∧ ∀ t, s.onlineAt = some t → 30 ≤ now - t := by
  have hsel : (pickSelected priorities now streamers).length ≤ maxConcurrentWatchers ∧
      ((pickSelected priorities now streamers).map Prod.fst).Nodup ∧
      ∀ x ∈ pickSelected priorities now streamers,
        x ∈ watchCandidates now streamers := by
    unfold pickSelected
    have base := pickSelectedFold_inv (watchCandidates now streamers) now priorities
      [] (by simp [maxConcurrentWatchers]) (by simp) (by simp)
    dsimp only
    split_ifs with hlen
    · refine ⟨watchPick_length_le _ _ base.1, watchPick_nodup _ _ base.2.1, ?_⟩
      intro x hx
      rcases mem_watchPick _ _ x hx with h1 | h1
      · exact base.2.2 x h1
      · exact h1
    · exact base
  refine ⟨rfl, ?_, hsel.2.1, ?_⟩
  · unfold pickStreamersToWatch
    rw [List.length_map]
    exact hsel.1
  · intro st hst
    unfold pickStreamersToWatch at hst
    obtain ⟨p, hp, rfl⟩ := List.mem_map.mp hst
    have := mem_watchCandidates now streamers p (hsel.2.2 p hp)
    exact ⟨this.1, fun t ht => not_lt.mp (this.2 t ht)⟩

/-- An online streamer whose online transition is 100 seconds old. -/
def wsOld : Streamer :=
  { sampleStreamer (sampleBet "SMART" 20 false) 50 with
    username := "old", onlineAt := some 0 }

/-- An online streamer that transitioned online 10 seconds ago. -/
def wsNew : Streamer :=
  { sampleStreamer (sampleBet "SMART" 20 false) 60 with
    username := "new", onlineAt := some 90 }

/-- An offline streamer. -/
def wsOff : Streamer :=
  { sampleStreamer (sampleBet "SMART" 20 false) 70 with
    username := "off", isOnline := false, onlineAt := some 0 }

/-- C6 witness: at instant 100 the input-order round over
[wsOld, wsNew, wsOff] picks exactly wsOld, which is online and whose
online transition is at least 30 seconds old. -/
theorem C6_watch_scheduler_witness :
    pickStreamersToWatch [WatchPriority.order] 100 [wsOld, wsNew, wsOff] = [wsOld] ∧
    wsOld.isOnline = true ∧ (∀ t, wsOld.onlineAt = some t → 30 ≤ 100 - t) := by
  have d1 : decide ((100:ℚ) - 0 < 30) = false := by
    rw [decide_eq_false_iff_not]
    norm_num
  have d2 : decide ((100:ℚ) - 90 < 30) = true := by
    rw [decide_eq_true_eq]
    norm_num
  have hrun : pickStreamersToWatch [WatchPriority.order] 100 [wsOld, wsNew, wsOff]
      = [wsOld] := by
    simp [pickStreamersToWatch, pickSelected, watchCandidates, watchPick, watchAdd,
      watchPriorityList, maxConcurrentWatchers, wsOld, wsNew, wsOff, sampleStreamer,
      sampleBet, d1, d2, List.enum, List.enumFrom, List.filter_cons, List.filter_nil,
      List.foldl_cons, List.foldl_nil, List.any_cons, List.any_nil,
      show (30:ℚ) ≤ 100 by norm_num]
  have h := (C6_watch_scheduler [WatchPriority.order] 100 [wsOld, wsNew, wsOff]).2.2.2
  have hmem : wsOld ∈ pickStreamersToWatch [WatchPriority.order] 100 [wsOld, wsNew, wsOff] := by
    rw [hrun]
    simp
  exact ⟨hrun, (h wsOld hmem).1, fun t ht => (h wsOld hmem).2 t ht⟩

end TCPM
